import Mathlib

/-!
Verification of the standings aggregation, king-streak calculation and
best-of-N session engine of the fifa-koenig-tracker application.

Each definition is a shallow embedding of the corresponding TypeScript
function; machine numbers are modelled as Nat (goals are non-negative
integers) and Int where subtraction occurs, nullable fields as Option.
-/

namespace Koenig

/-- Game mode; at runtime a plain string comparing the two literals
"1v1" and "2v2", so embedded as String. -/
abbrev Mode := String

/-- Embeds the Player type: an opaque id plus a display name. -/
structure Player where
  id : String
  name : String
deriving DecidableEq

/-- Embeds the Match type of the merged app variant, including the
optional back-reference sessionId added by session finalization. -/
structure Match where
  id : String
  dateISO : String
  mode : Mode
  teamAName : String
  teamBName : String
  teamAPlayers : List String
  teamBPlayers : List String
  goalsA : Nat
  goalsB : Nat
  enteredBy : String
  sessionId : Option String
deriving DecidableEq

/-- Embeds the KingSession type: a completed best-of-N series record. -/
structure KingSession where
  id : String
  dateISO : String
  kings : List String
  bestOf : Nat
  mode : Mode
  kingEnteredBy : Option String
deriving DecidableEq

/-- Embeds the Violation type; the type field is one of six string
literals at runtime, so embedded as String. -/
structure Violation where
  id : String
  dateISO : String
  playerId : String
  «type» : String
  comment : String
  enteredBy : String
deriving DecidableEq

/-- Embeds the DB snapshot type of the merged variant: theme selector
plus the four entity lists. -/
structure DB where
  theme : String
  players : List Player
  «matches» : List Match
  kingSessions : List KingSession
  violations : List Violation
deriving DecidableEq

/-- Per-player accumulator created by computeStandings for every roster
player before the match loop runs (the value stored in the Map). -/
structure StatAcc where
  id : String
  name : String
  played : Nat
  wins : Nat
  draws : Nat
  losses : Nat
  goalsFor : Nat
  goalsAgainst : Nat
deriving DecidableEq

/-- Final standings row: the accumulator plus the derived points and
goal-difference fields added when computeStandings returns. -/
structure StandRow where
  id : String
  name : String
  played : Nat
  wins : Nat
  draws : Nat
  losses : Nat
  goalsFor : Nat
  goalsAgainst : Nat
  points : Nat
  goalDiff : Int
deriving DecidableEq

/-- Zeroed accumulator for one roster player, as built by the Map
constructor inside computeStandings. -/
def initStat (p : Player) : StatAcc :=
  { id := p.id, name := p.name, played := 0, wins := 0, draws := 0
    losses := 0, goalsFor := 0, goalsAgainst := 0 }

/-- One team-A update of computeStandings: played, goals for/against
from the perspective of side A, and the outcome chain
(if aWon wins else if bWon losses else draws). -/
def bumpA (m : Match) (s : StatAcc) : StatAcc :=
  { s with
    played := s.played + 1
    goalsFor := s.goalsFor + m.goalsA
    goalsAgainst := s.goalsAgainst + m.goalsB
    wins := if m.goalsA > m.goalsB then s.wins + 1 else s.wins
    losses := if m.goalsA > m.goalsB then s.losses
              else if m.goalsB > m.goalsA then s.losses + 1 else s.losses
    draws := if m.goalsA > m.goalsB then s.draws
             else if m.goalsB > m.goalsA then s.draws else s.draws + 1 }

/-- One team-B update of computeStandings, from the perspective of side B. -/
def bumpB (m : Match) (s : StatAcc) : StatAcc :=
  { s with
    played := s.played + 1
    goalsFor := s.goalsFor + m.goalsB
    goalsAgainst := s.goalsAgainst + m.goalsA
    wins := if m.goalsB > m.goalsA then s.wins + 1 else s.wins
    losses := if m.goalsB > m.goalsA then s.losses
              else if m.goalsA > m.goalsB then s.losses + 1 else s.losses
    draws := if m.goalsB > m.goalsA then s.draws
             else if m.goalsA > m.goalsB then s.draws else s.draws + 1 }

/-- The team-A loop of computeStandings for one match, restricted to one
player id: each occurrence of the id in teamAPlayers applies one bumpA
(orphaned ids, absent from the Map, are skipped by the source; here the
accumulator exists only for the tracked id). -/
def applyTeamA (m : Match) (pid : String) (s : StatAcc) : StatAcc :=
  m.teamAPlayers.foldl (fun a q => if q = pid then bumpA m a else a) s

/-- The team-B loop of computeStandings for one match, restricted to one
player id. -/
def applyTeamB (m : Match) (pid : String) (s : StatAcc) : StatAcc :=
  m.teamBPlayers.foldl (fun a q => if q = pid then bumpB m a else a) s

/-- Derived fields added on return: points = wins*3 + draws and
goalDiff = goalsFor - goalsAgainst. -/
def finalize (s : StatAcc) : StandRow :=
  { id := s.id, name := s.name, played := s.played, wins := s.wins
    draws := s.draws, losses := s.losses, goalsFor := s.goalsFor
    goalsAgainst := s.goalsAgainst
    points := s.wins * 3 + s.draws
    goalDiff := (s.goalsFor : Int) - (s.goalsAgainst : Int) }

/-- The whole standings computation for one tracked player id: fold the
match list, running the team-A loop then the team-B loop of each match
(accumulators for distinct ids never interact in the source, so the
match-major loop decomposes into this per-player fold). -/
def playerRow (p : Player) (ms : List Match) : StandRow :=
  finalize (ms.foldl (fun acc m => applyTeamB m p.id (applyTeamA m p.id acc)) (initStat p))

/-- JS-Map insertion semantics for the players list: a later entry with a
duplicate id overwrites the stored value but keeps the first insertion
position. -/
def upsertPlayer (acc : List Player) (p : Player) : List Player :=
  if acc.any fun q => q.id = p.id then
    acc.map fun q => if q.id = p.id then p else q
  else acc ++ [p]

/-- Key set of the Map built by computeStandings, in Map iteration
order. -/
def dedupById (players : List Player) : List Player :=
  players.foldl upsertPlayer []

/-- Embeds computeStandings: one standings row per Map entry, in Map
iteration order. -/
def computeStandings (players : List Player) (ms : List Match) : List StandRow :=
  (dedupById players).map fun p => playerRow p ms

/-- Short-circuit or on comparator results: x || y in JS, where a
nonzero number is truthy. -/
def orI (x y : Int) : Int := if x = 0 then y else x

/-- Sign-level model of a.name.localeCompare(b.name): negative when a
orders before b, positive when after, zero when equal. -/
def nameCmp (a b : String) : Int :=
  if a < b then -1 else if b < a then 1 else 0

/-- The TableStats sort comparator: descending points, then descending
goal difference, then descending goals for, then name order. -/
def standingsCmp (a b : StandRow) : Int :=
  orI ((b.points : Int) - (a.points : Int))
    (orI (b.goalDiff - a.goalDiff)
      (orI ((b.goalsFor : Int) - (a.goalsFor : Int)) (nameCmp a.name b.name)))

/-- Comparator as a sort precondition: a may stay before b exactly when
the comparator does not order b strictly first (JS stable sort). -/
def standingsLe (a b : StandRow) : Bool := decide (standingsCmp a b ≤ 0)

/-- The standings rows in display order: the stable sort performed in
TableStats before rendering. -/
def sortedStandings (players : List Player) (ms : List Match) : List StandRow :=
  (computeStandings players ms).mergeSort standingsLe

/-- One step of the useKingInfo session walk for one player: an
empty-kings session is skipped wholesale; a session won by the player
increments the running counter; any other session flushes the running
counter into the longest streak and resets it. State is
(currentStreak, longestStreak). -/
def streakStep (pid : String) (cl : Nat × Nat) (s : KingSession) : Nat × Nat :=
  if s.kings.length = 0 then cl
  else if pid ∈ s.kings then (cl.1 + 1, cl.2)
  else (0, if cl.1 > cl.2 then cl.1 else cl.2)

/-- The chronological walk of useKingInfo for one player id over an
already sorted session list (per-player records never interact in the
source, so the session-major loop decomposes into this fold). -/
def walkStreak (pid : String) (sessions : List KingSession) : Nat × Nat :=
  sessions.foldl (streakStep pid) (0, 0)

/-- Embeds the sort at the top of useKingInfo: ascending by the numeric
time of dateISO; dateVal abstracts new Date(x).getTime(). -/
def sortSessions (dateVal : String → Int) (sessions : List KingSession) : List KingSession :=
  sessions.mergeSort fun a b => decide (dateVal a.dateISO ≤ dateVal b.dateISO)

/-- Running streak of a player after the walk (the value reported for
current kings). -/
def currentStreakOf (dateVal : String → Int) (sessions : List KingSession) (pid : String) : Nat :=
  (walkStreak pid (sortSessions dateVal sessions)).1

/-- Longest streak of a player: the walk result after the final flush of
the trailing run. -/
def longestStreakOf (dateVal : String → Int) (sessions : List KingSession) (pid : String) : Nat :=
  let w := walkStreak pid (sortSessions dateVal sessions)
  if w.1 > w.2 then w.1 else w.2

/-- Embeds the currentKings projection of useKingInfo: roster players
whose running streak is strictly positive, with their streak. -/
def currentKings (dateVal : String → Int) (players : List Player)
    (sessions : List KingSession) : List (Player × Nat) :=
  (players.filter fun p => 0 < currentStreakOf dateVal sessions p.id).map
    fun p => (p, currentStreakOf dateVal sessions p.id)

/-- Embeds a team participating in an active session. -/
structure SessionTeam where
  id : String
  name : String
  players : List String
deriving DecidableEq

/-- Embeds one schedule slot of an active session: the two team
identities plus nullable scores (null = not yet played). -/
structure ActiveSessionMatch where
  id : String
  teamA : SessionTeam
  teamB : SessionTeam
  goalsA : Option Nat
  goalsB : Option Nat
deriving DecidableEq

/-- Embeds the transient ActiveSession state. -/
structure ActiveSession where
  teams : List SessionTeam
  schedule : List ActiveSessionMatch
  bestOf : Nat
  mode : Mode
deriving DecidableEq

/-- Embeds Math.ceil(bestOf / 2) for a natural bestOf. -/
def winsNeeded (bestOf : Nat) : Nat := (bestOf + 1) / 2

/-- A slot counts as a team-A win when both scores are filled and
goalsA is strictly greater. -/
def slotWinA (m : ActiveSessionMatch) : Bool :=
  match m.goalsA, m.goalsB with
  | some a, some b => decide (a > b)
  | _, _ => false

/-- A slot counts as a team-B win when both scores are filled and
goalsB is strictly greater. -/
def slotWinB (m : ActiveSessionMatch) : Bool :=
  match m.goalsA, m.goalsB with
  | some a, some b => decide (b > a)
  | _, _ => false

/-- Slot-win tally of team A (schedule.filter(...).length). -/
def teamAWins (sched : List ActiveSessionMatch) : Nat := (sched.filter slotWinA).length

/-- Slot-win tally of team B. -/
def teamBWins (sched : List ActiveSessionMatch) : Nat := (sched.filter slotWinB).length

/-- Both scores of a slot are filled (!== null); the finalizer keeps
exactly these slots. -/
def slotFilled (m : ActiveSessionMatch) : Bool := m.goalsA.isSome && m.goalsB.isSome

/-- Embeds updateScore: set (or clear) the score of one side of the slot
with the given id; team is the A or B selector string. -/
def updateScore (sched : List ActiveSessionMatch) (matchId : String) (team : String)
    (score : Option Nat) : List ActiveSessionMatch :=
  sched.map fun m =>
    if m.id = matchId then
      if team = "A" then { m with goalsA := score } else { m with goalsB := score }
    else m

/-- Embeds finishSession on a session and its current schedule. The
source draws fresh ids from uid(); uidSeq abstracts that generator, call
number 0 being the new series id and call number i+1 the id of the
i-th generated match. now abstracts new Date().toISOString(). The
source reads teams[0] and teams[1], only ever reached with exactly two
teams (handleStart enforces this); a missing entry is given a dummy. -/
def finishSession (sess : ActiveSession) (sched : List ActiveSessionMatch)
    (uidSeq : Nat → String) (now : String) : List Match × KingSession :=
  let wn := winsNeeded sess.bestOf
  let winnerTeam : Option SessionTeam :=
    if wn ≤ teamAWins sched then some (sess.teams.getD 0 ⟨"", "", []⟩)
    else if wn ≤ teamBWins sched then some (sess.teams.getD 1 ⟨"", "", []⟩)
    else none
  let kings := match winnerTeam with
    | some t => t.players
    | none => []
  let sessionId := uidSeq 0
  let newMatches : List Match :=
    ((sched.filter slotFilled).enum).map fun im =>
      { id := uidSeq (im.1 + 1), dateISO := now, mode := sess.mode
        sessionId := some sessionId
        teamAPlayers := im.2.teamA.players, teamBPlayers := im.2.teamB.players
        goalsA := im.2.goalsA.getD 0, goalsB := im.2.goalsB.getD 0
        teamAName := im.2.teamA.name, teamBName := im.2.teamB.name
        enteredBy := "Session" }
  let newKingSession : KingSession :=
    { id := sessionId, dateISO := now, kings := kings
      kingEnteredBy := some "Session", bestOf := sess.bestOf, mode := sess.mode }
  (newMatches, newKingSession)

/-- Embeds the single setDb call of finishSession: both entity lists are
appended in one snapshot update. -/
def applyFinish (db : DB) (res : List Match × KingSession) : DB :=
  { db with «matches» := db.«matches» ++ res.1
            kingSessions := db.kingSessions ++ [res.2] }

/-- Result of one score mutation: either the session auto-finalized, or
it continues with the new schedule. -/
inductive StepResult where
  | finished (ms : List Match) (king : KingSession)
  | inProgress (sched : List ActiveSessionMatch)
deriving DecidableEq

/-- Embeds the auto-finish effect run after every score mutation: the
moment either tally reaches winsNeeded, finishSession runs with no
further manual action. -/
def checkAutoFinish (sess : ActiveSession) (sched : List ActiveSessionMatch)
    (uidSeq : Nat → String) (now : String) : StepResult :=
  if winsNeeded sess.bestOf ≤ teamAWins sched ∨ winsNeeded sess.bestOf ≤ teamBWins sched then
    let r := finishSession sess sched uidSeq now
    .finished r.1 r.2
  else .inProgress sched

/-- One full score mutation of the active-session state machine: apply
updateScore, then the auto-finish check. -/
def scoreStep (sess : ActiveSession) (sched : List ActiveSessionMatch) (matchId team : String)
    (score : Option Nat) (uidSeq : Nat → String) (now : String) : StepResult :=
  checkAutoFinish sess (updateScore sched matchId team score) uidSeq now

/-- JSON value tree: the image of JSON.stringify and the domain of
JSON.parse, abstracting away the concrete text. -/
inductive Jx where
  | jnull : Jx
  | jstr : String → Jx
  | jnum : Int → Jx
  | jarr : List Jx → Jx
  | jobj : List (String × Jx) → Jx

/-- First field of a JSON object with the given key. -/
def jfield (fs : List (String × Jx)) (k : String) : Option Jx := List.lookup k fs

/-- Read a JSON string. -/
def getStr : Jx → Option String
  | .jstr s => some s
  | _ => none

/-- Read a non-negative JSON integer. -/
def getNat : Jx → Option Nat
  | .jnum n => if n < 0 then none else some n.toNat
  | _ => none

/-- Decode a JSON array element by element, failing when any element
fails. -/
def mapDec {a b : Type} (dec : b → Option a) : List b → Option (List a)
  | [] => some []
  | x :: xs => do
      let y ← dec x
      let ys ← mapDec dec xs
      pure (y :: ys)

/-- Read a JSON array of strings. -/
def getStrList : Jx → Option (List String)
  | .jarr xs => mapDec getStr xs
  | _ => none

/-- Serialize a Player the way JSON.stringify lays it out. -/
def encPlayer (p : Player) : Jx := .jobj [("id", .jstr p.id), ("name", .jstr p.name)]

/-- Serialize a Match; an undefined optional sessionId is omitted by
JSON.stringify. -/
def encMatch (m : Match) : Jx :=
  .jobj ([("id", .jstr m.id), ("dateISO", .jstr m.dateISO), ("mode", .jstr m.mode),
    ("teamAName", .jstr m.teamAName), ("teamBName", .jstr m.teamBName),
    ("teamAPlayers", .jarr (m.teamAPlayers.map .jstr)),
    ("teamBPlayers", .jarr (m.teamBPlayers.map .jstr)),
    ("goalsA", .jnum m.goalsA), ("goalsB", .jnum m.goalsB),
    ("enteredBy", .jstr m.enteredBy)] ++
    (match m.sessionId with
     | some s => [("sessionId", .jstr s)]
     | none => []))

/-- Serialize a KingSession; an undefined kingEnteredBy is omitted. -/
def encKingSession (s : KingSession) : Jx :=
  .jobj ([("id", .jstr s.id), ("dateISO", .jstr s.dateISO),
    ("kings", .jarr (s.kings.map .jstr)), ("bestOf", .jnum s.bestOf),
    ("mode", .jstr s.mode)] ++
    (match s.kingEnteredBy with
     | some e => [("kingEnteredBy", .jstr e)]
     | none => []))

/-- Serialize a Violation. -/
def encViolation (v : Violation) : Jx :=
  .jobj [("id", .jstr v.id), ("dateISO", .jstr v.dateISO), ("playerId", .jstr v.playerId),
    ("type", .jstr v.«type»), ("comment", .jstr v.comment), ("enteredBy", .jstr v.enteredBy)]

/-- Embeds the ExportButton payload: JSON.stringify of the whole
snapshot, field for field. -/
def encDB (db : DB) : Jx :=
  .jobj [("theme", .jstr db.theme),
    ("players", .jarr (db.players.map encPlayer)),
    ("matches", .jarr (db.«matches».map encMatch)),
    ("kingSessions", .jarr (db.kingSessions.map encKingSession)),
    ("violations", .jarr (db.violations.map encViolation))]

/-- Parse a Player back out of an imported JSON object. -/
def decPlayer : Jx → Option Player
  | .jobj fs => do
      let i ← jfield fs "id" >>= getStr
      let n ← jfield fs "name" >>= getStr
      pure { id := i, name := n }
  | _ => none

/-- Parse a Match back; a missing sessionId field stays none, matching
the undefined optional property after JSON.parse. -/
def decMatch : Jx → Option Match
  | .jobj fs => do
      let i ← jfield fs "id" >>= getStr
      let d ← jfield fs "dateISO" >>= getStr
      let mo ← jfield fs "mode" >>= getStr
      let an ← jfield fs "teamAName" >>= getStr
      let bn ← jfield fs "teamBName" >>= getStr
      let ap ← jfield fs "teamAPlayers" >>= getStrList
      let bp ← jfield fs "teamBPlayers" >>= getStrList
      let ga ← jfield fs "goalsA" >>= getNat
      let gb ← jfield fs "goalsB" >>= getNat
      let eb ← jfield fs "enteredBy" >>= getStr
      let sid : Option String :=
        match jfield fs "sessionId" with
        | some (.jstr s) => some s
        | _ => none
      pure { id := i, dateISO := d, mode := mo, teamAName := an, teamBName := bn
             teamAPlayers := ap, teamBPlayers := bp, goalsA := ga, goalsB := gb
             enteredBy := eb, sessionId := sid }
  | _ => none

/-- Parse a KingSession back. -/
def decKingSession : Jx → Option KingSession
  | .jobj fs => do
      let i ← jfield fs "id" >>= getStr
      let d ← jfield fs "dateISO" >>= getStr
      let ks ← jfield fs "kings" >>= getStrList
      let bo ← jfield fs "bestOf" >>= getNat
      let mo ← jfield fs "mode" >>= getStr
      let ke : Option String :=
        match jfield fs "kingEnteredBy" with
        | some (.jstr s) => some s
        | _ => none
      pure { id := i, dateISO := d, kings := ks, bestOf := bo, mode := mo
             kingEnteredBy := ke }
  | _ => none

/-- Parse a Violation back. -/
def decViolation : Jx → Option Violation
  | .jobj fs => do
      let i ← jfield fs "id" >>= getStr
      let d ← jfield fs "dateISO" >>= getStr
      let p ← jfield fs "playerId" >>= getStr
      let t ← jfield fs "type" >>= getStr
      let c ← jfield fs "comment" >>= getStr
      let e ← jfield fs "enteredBy" >>= getStr
      pure { id := i, dateISO := d, playerId := p, «type» := t, comment := c
             enteredBy := e }
  | _ => none

/-- Parse an imported snapshot back into the DB shape. -/
def decDB : Jx → Option DB
  | .jobj fs => do
      let th ← jfield fs "theme" >>= getStr
      let ps ← match jfield fs "players" with
        | some (.jarr xs) => mapDec decPlayer xs
        | _ => none
      let ms ← match jfield fs "matches" with
        | some (.jarr xs) => mapDec decMatch xs
        | _ => none
      let ss ← match jfield fs "kingSessions" with
        | some (.jarr xs) => mapDec decKingSession xs
        | _ => none
      let vs ← match jfield fs "violations" with
        | some (.jarr xs) => mapDec decViolation xs
        | _ => none
      pure { theme := th, players := ps, «matches» := ms, kingSessions := ss
             violations := vs }
  | _ => none

/-- Embeds keepTheme || data.theme || "BVB": the first truthy (non-empty)
string wins. -/
def themeOr (keep dataTheme : String) : String :=
  if keep ≠ "" then keep else if dataTheme ≠ "" then dataTheme else "BVB"

/-- Embeds the ImportButton handler on a successfully parsed snapshot:
replace the whole snapshot, overriding the theme with the active one. -/
def importDb (j : Jx) (keepTheme : String) : Option DB :=
  (decDB j).map fun d => { d with theme := themeOr keepTheme d.theme }

/-- A fold preserves any property preserved by each step. -/
theorem foldl_preserve {α β : Type} (P : α → Prop) (f : α → β → α)
    (h : ∀ a b, P a → P (f a b)) : ∀ (l : List β) (a : α), P a → P (l.foldl f a) := by
  intro l
  induction l with
  | nil => intro a ha; exact ha
  | cons x xs ih => intro a ha; exact ih _ (h a x ha)

/-- A team-A update keeps the won-drawn-lost accounting balanced. -/
theorem bumpA_balance (m : Match) (s : StatAcc)
    (h : s.wins + s.draws + s.losses = s.played) :
    (bumpA m s).wins + (bumpA m s).draws + (bumpA m s).losses = (bumpA m s).played := by
  simp only [bumpA]
  split_ifs <;> omega

/-- A team-B update keeps the won-drawn-lost accounting balanced. -/
theorem bumpB_balance (m : Match) (s : StatAcc)
    (h : s.wins + s.draws + s.losses = s.played) :
    (bumpB m s).wins + (bumpB m s).draws + (bumpB m s).losses = (bumpB m s).played := by
  simp only [bumpB]
  split_ifs <;> omega

/-- The accounting balance is preserved through one whole match. -/
theorem matchStep_balance (pid : String) (a : StatAcc) (m : Match)
    (h : a.wins + a.draws + a.losses = a.played) :
    (applyTeamB m pid (applyTeamA m pid a)).wins + (applyTeamB m pid (applyTeamA m pid a)).draws +
      (applyTeamB m pid (applyTeamA m pid a)).losses =
      (applyTeamB m pid (applyTeamA m pid a)).played := by
  have hA := foldl_preserve (fun s : StatAcc => s.wins + s.draws + s.losses = s.played)
    (fun a q => if q = pid then bumpA m a else a)
    (by
      intro s q hs
      by_cases hq : q = pid
      · simpa [hq] using bumpA_balance m s hs
      · simpa [hq] using hs)
    m.teamAPlayers a h
  exact foldl_preserve (fun s : StatAcc => s.wins + s.draws + s.losses = s.played)
    (fun a q => if q = pid then bumpB m a else a)
    (by
      intro s q hs
      by_cases hq : q = pid
      · simpa [hq] using bumpB_balance m s hs
      · simpa [hq] using hs)
    m.teamBPlayers _ hA

/-- C1. For every player record produced by computeStandings over any
player list and any match list, the accounting identities hold:
points = 3*wins + draws, goalDiff = goalsFor - goalsAgainst, and
wins + draws + losses = played. -/
theorem standings_accounting (ps : List Player) (ms : List Match) (r : StandRow)
    (hr : r ∈ computeStandings ps ms) :
    r.points = 3 * r.wins + r.draws ∧
    r.goalDiff = (r.goalsFor : Int) - (r.goalsAgainst : Int) ∧
    r.wins + r.draws + r.losses = r.played := by
  rcases List.mem_map.mp hr with ⟨p, _hp, rfl⟩
  have hbal := foldl_preserve (fun s : StatAcc => s.wins + s.draws + s.losses = s.played)
    (fun acc m => applyTeamB m p.id (applyTeamA m p.id acc))
    (fun a m ha => matchStep_balance p.id a m ha) ms (initStat p) (by simp [initStat])
  refine ⟨?_, ?_, ?_⟩
  · simp [playerRow, finalize]; omega
  · simp [playerRow, finalize]
  · simpa [playerRow, finalize] using hbal

/-- C1 witness: the identities at a concrete roster and match list. -/
theorem standings_accounting_witness :
    ({ id := "p1", name := "A", played := 1, wins := 1, draws := 0, losses := 0,
       goalsFor := 3, goalsAgainst := 1, points := 3, goalDiff := 2 } : StandRow) ∈
      computeStandings [{ id := "p1", name := "A" }]
        [{ id := "m1", dateISO := "t", mode := "1v1", teamAName := "A", teamBName := "B",
           teamAPlayers := ["p1"], teamBPlayers := ["p2"], goalsA := 3, goalsB := 1,
           enteredBy := "x", sessionId := none }] ∧
    (3 : Nat) = 3 * 1 + 0 ∧ (2 : Int) = (3 : Int) - 1 ∧ (1 : Nat) + 0 + 0 = 1 := by
  have hmem :
      ({ id := "p1", name := "A", played := 1, wins := 1, draws := 0, losses := 0,
         goalsFor := 3, goalsAgainst := 1, points := 3, goalDiff := 2 } : StandRow) ∈
        computeStandings [{ id := "p1", name := "A" }]
          [{ id := "m1", dateISO := "t", mode := "1v1", teamAName := "A", teamBName := "B",
             teamAPlayers := ["p1"], teamBPlayers := ["p2"], goalsA := 3, goalsB := 1,
             enteredBy := "x", sessionId := none }] := by decide
  have h := standings_accounting _ _ _ hmem
  exact ⟨hmem, h.1, h.2.1, h.2.2⟩

/-- C6. The longest streak reported by the king-streak calculator is at
least the current streak, for every player and session history. -/
theorem streak_monotone (dateVal : String → Int) (sessions : List KingSession) (pid : String) :
    currentStreakOf dateVal sessions pid ≤ longestStreakOf dateVal sessions pid := by
  unfold currentStreakOf longestStreakOf
  dsimp only
  split <;> omega

/-- C7. A session with an empty kings list is skipped by the streak
walk: it leaves the running counter and longest streak of every player
unchanged, both as a single step and at the end of a history. -/
theorem empty_kings_frame (s : KingSession) (hs : s.kings = []) :
    (∀ pid cl, streakStep pid cl s = cl) ∧
    (∀ pid (l : List KingSession), walkStreak pid (l ++ [s]) = walkStreak pid l) := by
  have hstep : ∀ pid cl, streakStep pid cl s = cl := by
    intro pid cl
    simp [streakStep, hs]
  refine ⟨hstep, ?_⟩
  intro pid l
  simp [walkStreak, List.foldl_append, hstep]

/-- C7 witness: a concrete empty-kings session leaves a concrete streak
state untouched. -/
theorem empty_kings_frame_witness :
    streakStep "p1" (2, 1)
      { id := "s1", dateISO := "t", kings := [], bestOf := 3, mode := "1v1",
        kingEnteredBy := none } = (2, 1) :=
  (empty_kings_frame
    { id := "s1", dateISO := "t", kings := [], bestOf := 3, mode := "1v1",
      kingEnteredBy := none } rfl).1 "p1" (2, 1)

/-- C2. In an active best-of-N session: winsNeeded is the ceiling of
bestOf over 2 (the least tally with twice the tally at least bestOf); a
slot adds one team-A slot-win exactly when both scores are filled and
goalsA is strictly greater, symmetrically for team B, so a tied or
incomplete slot counts toward neither tally; and a score mutation
finalizes the session exactly when one of the updated tallies has
reached winsNeeded, with no further manual action. -/
theorem auto_finalize_threshold (sess : ActiveSession) (sched : List ActiveSessionMatch)
    (matchId team : String) (score : Option Nat) (uidSeq : Nat → String) (now : String)
    (slot : ActiveSessionMatch) (rest : List ActiveSessionMatch) :
    2 * winsNeeded sess.bestOf = sess.bestOf + sess.bestOf % 2 ∧
    teamAWins (slot :: rest) = teamAWins rest +
      (match slot.goalsA, slot.goalsB with
       | some a, some b => if a > b then 1 else 0
       | _, _ => 0) ∧
    teamBWins (slot :: rest) = teamBWins rest +
      (match slot.goalsA, slot.goalsB with
       | some a, some b => if b > a then 1 else 0
       | _, _ => 0) ∧
    ((∃ ms king, scoreStep sess sched matchId team score uidSeq now = .finished ms king) ↔
      (winsNeeded sess.bestOf ≤ teamAWins (updateScore sched matchId team score) ∨
       winsNeeded sess.bestOf ≤ teamBWins (updateScore sched matchId team score))) := by
  refine ⟨?_, ?_, ?_, ?_⟩
  · unfold winsNeeded; omega
  · unfold teamAWins
    rcases hga : slot.goalsA with _ | a <;> rcases hgb : slot.goalsB with _ | b <;>
      simp [List.filter_cons, slotWinA, hga, hgb]
    by_cases hab : a > b <;> simp [hab, Nat.add_comm]
  · unfold teamBWins
    rcases hga : slot.goalsA with _ | a <;> rcases hgb : slot.goalsB with _ | b <;>
      simp [List.filter_cons, slotWinB, hga, hgb]
    by_cases hab : b > a <;> simp [hab, Nat.add_comm]
  · unfold scoreStep checkAutoFinish
    by_cases hcond :
        winsNeeded sess.bestOf ≤ teamAWins (updateScore sched matchId team score) ∨
        winsNeeded sess.bestOf ≤ teamBWins (updateScore sched matchId team score) <;>
      simp [hcond]

/-- Both scores of a filled slot are read back unchanged when the
finalizer copies them (helper for C3). -/
theorem enum_map_snd_comp {α β : Type} (l : List α) (h : α → β) :
    l.enum.map (fun im => h im.2) = l.map h := by
  rw [show (fun im : Nat × α => h im.2) = h ∘ Prod.snd from rfl, ← List.map_map,
    List.enum_map_snd]

/-- C3. Finalizing a session produces one new Match per schedule slot
with both scores filled (null slots are dropped, not saved as 0:0),
copying the scores of each kept slot, and exactly one new KingSession;
every generated match carries the id of the new KingSession as its
sessionId and
the shared finalization timestamp; and the one snapshot update appends
the match list and the session list together. -/
theorem finalize_atomic (sess : ActiveSession) (sched : List ActiveSessionMatch)
    (uidSeq : Nat → String) (now : String) (db : DB) :
    (finishSession sess sched uidSeq now).1.length = (sched.filter slotFilled).length ∧
    (finishSession sess sched uidSeq now).1.map (fun m => (m.goalsA, m.goalsB)) =
      (sched.filter slotFilled).map (fun m => (m.goalsA.getD 0, m.goalsB.getD 0)) ∧
    (finishSession sess sched uidSeq now).1.map (fun m => (m.sessionId, m.dateISO)) =
      List.replicate (finishSession sess sched uidSeq now).1.length
        (some (finishSession sess sched uidSeq now).2.id, now) ∧
    applyFinish db (finishSession sess sched uidSeq now) =
      { db with «matches» := db.«matches» ++ (finishSession sess sched uidSeq now).1
                kingSessions := db.kingSessions ++ [(finishSession sess sched uidSeq now).2] } := by
  refine ⟨?_, ?_, ?_, rfl⟩
  · simp [finishSession]
  · simp only [finishSession, List.map_map]
    exact enum_map_snd_comp (sched.filter slotFilled) fun m => (m.goalsA.getD 0, m.goalsB.getD 0)
  · simp only [finishSession, List.map_map, List.length_map, List.enum_length]
    have h := List.map_const' (sched.filter slotFilled).enum
      ((some (uidSeq 0) : Option String), now)
    rw [List.enum_length] at h
    exact h

/-- C4. On finalization the winner is team A if its tally reached
winsNeeded, else team B if its tally did, else nobody; the new
kings list of the new KingSession is the player id list of the winning
team, or empty
when there is no winner. -/
theorem winner_kings (sess : ActiveSession) (sched : List ActiveSessionMatch)
    (uidSeq : Nat → String) (now : String) (tA tB : SessionTeam)
    (h : sess.teams = [tA, tB]) :
    (finishSession sess sched uidSeq now).2.kings =
      if winsNeeded sess.bestOf ≤ teamAWins sched then tA.players
      else if winsNeeded sess.bestOf ≤ teamBWins sched then tB.players
      else [] := by
  simp only [finishSession, h]
  split_ifs <;> rfl

/-- C4 witness: a concrete decided series crowns the roster of team A. -/
theorem winner_kings_witness :
    (finishSession
        { teams := [{ id := "tA", name := "Alpha", players := ["p1"] },
                    { id := "tB", name := "Beta", players := ["p2"] }],
          schedule := [], bestOf := 3, mode := "1v1" }
        [{ id := "g1", teamA := { id := "tA", name := "Alpha", players := ["p1"] },
           teamB := { id := "tB", name := "Beta", players := ["p2"] },
           goalsA := some 2, goalsB := some 0 },
         { id := "g2", teamA := { id := "tA", name := "Alpha", players := ["p1"] },
           teamB := { id := "tB", name := "Beta", players := ["p2"] },
           goalsA := some 1, goalsB := some 0 }]
        (fun n => toString n) "t").2.kings = ["p1"] := by
  have h := winner_kings
    { teams := [{ id := "tA", name := "Alpha", players := ["p1"] },
                { id := "tB", name := "Beta", players := ["p2"] }],
      schedule := [], bestOf := 3, mode := "1v1" }
    [{ id := "g1", teamA := { id := "tA", name := "Alpha", players := ["p1"] },
       teamB := { id := "tB", name := "Beta", players := ["p2"] },
       goalsA := some 2, goalsB := some 0 },
     { id := "g2", teamA := { id := "tA", name := "Alpha", players := ["p1"] },
       teamB := { id := "tB", name := "Beta", players := ["p2"] },
       goalsA := some 1, goalsB := some 0 }]
    (fun n => toString n) "t"
    { id := "tA", name := "Alpha", players := ["p1"] }
    { id := "tB", name := "Beta", players := ["p2"] } rfl
  simpa using h

/-- A slot cannot count as a win for both teams (helper for C10). -/
theorem slotWin_exclusive (m : ActiveSessionMatch) :
    slotWinA m = true → slotWinB m = false := by
  unfold slotWinA slotWinB
  rcases m.goalsA with _ | a <;> rcases m.goalsB with _ | b <;> simp
  omega

/-- The two slot-win tallies together never exceed the number of slots
(helper for C10). -/
theorem teamWins_le_length : ∀ sched : List ActiveSessionMatch,
    teamAWins sched + teamBWins sched ≤ sched.length := by
  intro sched
  induction sched with
  | nil => simp [teamAWins, teamBWins]
  | cons x xs ih =>
    unfold teamAWins teamBWins at *
    rcases hA : slotWinA x with _ | _
    · rcases hB : slotWinB x with _ | _ <;>
        simp [List.filter_cons, hA, hB, List.length_cons] <;> omega
    · have hB := slotWin_exclusive x hA
      simp [List.filter_cons, hA, hB, List.length_cons]
      omega

/-- C10. For an odd bestOf and a schedule of exactly bestOf slots, the
two slot-win tallies cannot both reach winsNeeded: the winner
determination of the finalizer is unambiguous. -/
theorem no_double_winner (sched : List ActiveSessionMatch) (b : Nat)
    (hodd : b % 2 = 1) (hlen : sched.length = b) :
    ¬(winsNeeded b ≤ teamAWins sched ∧ winsNeeded b ≤ teamBWins sched) := by
  intro hc
  have hle := teamWins_le_length sched
  unfold winsNeeded at hc
  omega

/-- C10 witness: with bestOf 3 and a concrete 3-slot schedule where team
A already has two wins, the tallies cannot both reach winsNeeded. -/
theorem no_double_winner_witness :
    ¬(winsNeeded 3 ≤ teamAWins
        [{ id := "g1", teamA := { id := "tA", name := "Alpha", players := ["p1"] },
           teamB := { id := "tB", name := "Beta", players := ["p2"] },
           goalsA := some 2, goalsB := some 0 },
         { id := "g2", teamA := { id := "tA", name := "Alpha", players := ["p1"] },
           teamB := { id := "tB", name := "Beta", players := ["p2"] },
           goalsA := some 3, goalsB := some 1 },
         { id := "g3", teamA := { id := "tA", name := "Alpha", players := ["p1"] },
           teamB := { id := "tB", name := "Beta", players := ["p2"] },
           goalsA := none, goalsB := none }] ∧
      winsNeeded 3 ≤ teamBWins
        [{ id := "g1", teamA := { id := "tA", name := "Alpha", players := ["p1"] },
           teamB := { id := "tB", name := "Beta", players := ["p2"] },
           goalsA := some 2, goalsB := some 0 },
         { id := "g2", teamA := { id := "tA", name := "Alpha", players := ["p1"] },
           teamB := { id := "tB", name := "Beta", players := ["p2"] },
           goalsA := some 3, goalsB := some 1 },
         { id := "g3", teamA := { id := "tA", name := "Alpha", players := ["p1"] },
           teamB := { id := "tB", name := "Beta", players := ["p2"] },
           goalsA := none, goalsB := none }]) :=
  no_double_winner
    [{ id := "g1", teamA := { id := "tA", name := "Alpha", players := ["p1"] },
       teamB := { id := "tB", name := "Beta", players := ["p2"] },
       goalsA := some 2, goalsB := some 0 },
     { id := "g2", teamA := { id := "tA", name := "Alpha", players := ["p1"] },
       teamB := { id := "tB", name := "Beta", players := ["p2"] },
       goalsA := some 3, goalsB := some 1 },
     { id := "g3", teamA := { id := "tA", name := "Alpha", players := ["p1"] },
       teamB := { id := "tB", name := "Beta", players := ["p2"] },
       goalsA := none, goalsB := none }] 3 rfl rfl

/-- A team loop touches the tracked accumulator once per occurrence of
the id in the team list (helper for C5). -/
theorem foldl_if_eq (f : StatAcc → StatAcc) (pid : String) :
    ∀ (l : List String) (s : StatAcc),
      l.foldl (fun a q => if q = pid then f a else a) s = f^[l.count pid] s := by
  intro l
  induction l with
  | nil => intro s; simp
  | cons q l ih =>
    intro s
    by_cases h : q = pid
    · simp [h, List.count_cons, ih, Function.iterate_succ_apply]
    · simp [h, List.count_cons, ih]

/-- C5. Aggregating a single match: a roster player appearing once on
team A (and not on team B) gains exactly one win when goalsA is strictly
greater, exactly one loss when goalsB is strictly greater, exactly one
draw on equality, with goals credited from the perspective of side A; and
symmetrically for a roster player on team B. -/
theorem match_outcome_symmetry (m : Match) (pa pb : Player)
    (ha1 : m.teamAPlayers.count pa.id = 1) (ha2 : pa.id ∉ m.teamBPlayers)
    (hb1 : m.teamBPlayers.count pb.id = 1) (hb2 : pb.id ∉ m.teamAPlayers) :
    ((playerRow pa [m]).played = 1 ∧
     (playerRow pa [m]).goalsFor = m.goalsA ∧
     (playerRow pa [m]).goalsAgainst = m.goalsB ∧
     (playerRow pa [m]).wins = (if m.goalsA > m.goalsB then 1 else 0) ∧
     (playerRow pa [m]).losses = (if m.goalsB > m.goalsA then 1 else 0) ∧
     (playerRow pa [m]).draws = (if m.goalsA = m.goalsB then 1 else 0)) ∧
    ((playerRow pb [m]).played = 1 ∧
     (playerRow pb [m]).goalsFor = m.goalsB ∧
     (playerRow pb [m]).goalsAgainst = m.goalsA ∧
     (playerRow pb [m]).wins = (if m.goalsB > m.goalsA then 1 else 0) ∧
     (playerRow pb [m]).losses = (if m.goalsA > m.goalsB then 1 else 0) ∧
     (playerRow pb [m]).draws = (if m.goalsA = m.goalsB then 1 else 0)) := by
  have hA : playerRow pa [m] = finalize (bumpA m (initStat pa)) := by
    unfold playerRow applyTeamA applyTeamB
    rw [List.foldl_cons, List.foldl_nil, foldl_if_eq (bumpA m) pa.id,
      foldl_if_eq (bumpB m) pa.id, ha1, List.count_eq_zero_of_not_mem ha2]
    simp
  have hB : playerRow pb [m] = finalize (bumpB m (initStat pb)) := by
    unfold playerRow applyTeamA applyTeamB
    rw [List.foldl_cons, List.foldl_nil, foldl_if_eq (bumpA m) pb.id,
      foldl_if_eq (bumpB m) pb.id, hb1, List.count_eq_zero_of_not_mem hb2]
    simp
  rw [hA, hB]
  refine ⟨⟨?_, ?_, ?_, ?_, ?_, ?_⟩, ⟨?_, ?_, ?_, ?_, ?_, ?_⟩⟩ <;>
    simp only [finalize, bumpA, bumpB, initStat, Nat.zero_add] <;>
    split_ifs <;> omega

/-- C5 witness: a concrete 3:1 match where the team-A player takes one
win and the team-B player one loss. -/
theorem match_outcome_symmetry_witness :
    (playerRow { id := "p1", name := "A" }
      [{ id := "m1", dateISO := "t", mode := "1v1", teamAName := "A", teamBName := "B",
         teamAPlayers := ["p1"], teamBPlayers := ["p2"], goalsA := 3, goalsB := 1,
         enteredBy := "x", sessionId := none }]).wins = 1 ∧
    (playerRow { id := "p2", name := "B" }
      [{ id := "m1", dateISO := "t", mode := "1v1", teamAName := "A", teamBName := "B",
         teamAPlayers := ["p1"], teamBPlayers := ["p2"], goalsA := 3, goalsB := 1,
         enteredBy := "x", sessionId := none }]).losses = 1 := by
  have h := match_outcome_symmetry
    { id := "m1", dateISO := "t", mode := "1v1", teamAName := "A", teamBName := "B",
      teamAPlayers := ["p1"], teamBPlayers := ["p2"], goalsA := 3, goalsB := 1,
      enteredBy := "x", sessionId := none }
    { id := "p1", name := "A" } { id := "p2", name := "B" }
    (by decide) (by decide) (by decide) (by decide)
  refine ⟨?_, ?_⟩
  · rw [h.1.2.2.2.1]; decide
  · rw [h.2.2.2.2.2.1]; decide

/-- A JS short-circuit or of comparator values is non-positive exactly
when the first value is negative, or zero with a non-positive second. -/
theorem orI_le (x y : Int) : orI x y ≤ 0 ↔ x < 0 ∨ (x = 0 ∧ y ≤ 0) := by
  unfold orI
  split_ifs with h <;> omega

/-- The name comparator is non-positive exactly for ordered names. -/
theorem nameCmp_le (a b : String) : nameCmp a b ≤ 0 ↔ a ≤ b := by
  unfold nameCmp
  split_ifs with h1 h2
  · exact iff_of_true (by omega) (le_of_lt h1)
  · exact iff_of_false (by omega) (not_le.mpr h2)
  · exact iff_of_true (by omega) (le_of_not_lt h2)

/-- The standings comparator orders a at or before b exactly when the
key chain (descending points, descending goal difference, descending
goals for, ascending name) does. -/
theorem standingsCmp_le (a b : StandRow) : standingsCmp a b ≤ 0 ↔
    (b.points < a.points ∨ (a.points = b.points ∧
      (b.goalDiff < a.goalDiff ∨ (a.goalDiff = b.goalDiff ∧
        (b.goalsFor < a.goalsFor ∨ (a.goalsFor = b.goalsFor ∧ a.name ≤ b.name)))))) := by
  unfold standingsCmp
  rw [orI_le, orI_le, orI_le, nameCmp_le]
  constructor
  · rintro (h | ⟨h0, h | ⟨h1, h2 | ⟨h3, h4⟩⟩⟩)
    · exact Or.inl (by omega)
    · exact Or.inr ⟨by omega, Or.inl (by omega)⟩
    · exact Or.inr ⟨by omega, Or.inr ⟨by omega, Or.inl (by omega)⟩⟩
    · exact Or.inr ⟨by omega, Or.inr ⟨by omega, Or.inr ⟨by omega, h4⟩⟩⟩
  · rintro (h | ⟨h0, h | ⟨h1, h2 | ⟨h3, h4⟩⟩⟩)
    · exact Or.inl (by omega)
    · exact Or.inr ⟨by omega, Or.inl (by omega)⟩
    · exact Or.inr ⟨by omega, Or.inr ⟨by omega, Or.inl (by omega)⟩⟩
    · exact Or.inr ⟨by omega, Or.inr ⟨by omega, Or.inr ⟨by omega, h4⟩⟩⟩

/-- The comparator precondition is transitive (needed for the stable
sort to produce a sorted list). -/
theorem standingsLe_trans (a b c : StandRow) :
    standingsLe a b = true → standingsLe b c = true → standingsLe a c = true := by
  simp only [standingsLe, decide_eq_true_eq]
  rw [standingsCmp_le, standingsCmp_le, standingsCmp_le]
  rintro (h | ⟨e1, h | ⟨e2, h | ⟨e3, h⟩⟩⟩) (g | ⟨f1, g | ⟨f2, g | ⟨f3, g⟩⟩⟩) <;>
    first
    | exact Or.inl (by omega)
    | exact Or.inr ⟨by omega, Or.inl (by omega)⟩
    | exact Or.inr ⟨by omega, Or.inr ⟨by omega, Or.inl (by omega)⟩⟩
    | exact Or.inr ⟨by omega, Or.inr ⟨by omega, Or.inr ⟨by omega, le_trans h g⟩⟩⟩

/-- The comparator precondition is total. -/
theorem standingsLe_total (a b : StandRow) :
    (standingsLe a b || standingsLe b a) = true := by
  simp only [standingsLe, Bool.or_eq_true, decide_eq_true_eq]
  rw [standingsCmp_le, standingsCmp_le]
  rcases Nat.lt_trichotomy a.points b.points with h1 | h1 | h1
  · exact Or.inr (Or.inl h1)
  · rcases Int.lt_trichotomy a.goalDiff b.goalDiff with h2 | h2 | h2
    · exact Or.inr (Or.inr ⟨h1.symm, Or.inl h2⟩)
    · rcases Nat.lt_trichotomy a.goalsFor b.goalsFor with h3 | h3 | h3
      · exact Or.inr (Or.inr ⟨h1.symm, Or.inr ⟨h2.symm, Or.inl h3⟩⟩)
      · rcases le_total a.name b.name with h4 | h4
        · exact Or.inl (Or.inr ⟨h1, Or.inr ⟨h2, Or.inr ⟨h3, h4⟩⟩⟩)
        · exact Or.inr (Or.inr ⟨h1.symm, Or.inr ⟨h2.symm, Or.inr ⟨h3.symm, h4⟩⟩⟩)
      · exact Or.inl (Or.inr ⟨h1, Or.inr ⟨h2, Or.inl h3⟩⟩)
    · exact Or.inl (Or.inr ⟨h1, Or.inl h2⟩)
  · exact Or.inl (Or.inl h1)


/-- A stable two-element sort reduces to one comparator test (helper for
the concrete C8 computations, since mergeSort itself is defined by
well-founded recursion and does not reduce definitionally). -/
theorem mergeSort_pair {α : Type} (le : α → α → Bool) (a b : α) :
    List.mergeSort [a, b] le = if le a b then [a, b] else [b, a] := by
  rw [List.mergeSort]
  simp [List.merge]


/-- Concrete name-order fact used by the C8 computations, pushed to the
character-list level where the order is kernel-computable. -/
theorem nameA_lt_nameB : ("A" : String) < "B" :=
  String.lt_iff_toList_lt.mpr (by decide)

/-- C8 counterexample: two roster players with equal points and equal
goal difference but different goals-for are displayed with the higher
goals-for first, against ascending-name order, so the claimed tie-break
fails on this snapshot. -/
theorem tiebreak_counterexample :
    ¬ (sortedStandings
        [{ id := "p1", name := "A" }, { id := "p2", name := "B" }]
        [{ id := "m1", dateISO := "t1", mode := "1v1", teamAName := "A", teamBName := "G",
           teamAPlayers := ["p1"], teamBPlayers := ["g1"], goalsA := 2, goalsB := 2,
           enteredBy := "x", sessionId := none },
         { id := "m2", dateISO := "t2", mode := "1v1", teamAName := "B", teamBName := "G",
           teamAPlayers := ["p2"], teamBPlayers := ["g2"], goalsA := 3, goalsB := 3,
           enteredBy := "x", sessionId := none }]).Pairwise
      (fun r s => r.points = s.points → r.goalDiff = s.goalDiff → r.name ≤ s.name) := by
  have hcs : computeStandings
      [{ id := "p1", name := "A" }, { id := "p2", name := "B" }]
      [{ id := "m1", dateISO := "t1", mode := "1v1", teamAName := "A", teamBName := "G",
         teamAPlayers := ["p1"], teamBPlayers := ["g1"], goalsA := 2, goalsB := 2,
         enteredBy := "x", sessionId := none },
       { id := "m2", dateISO := "t2", mode := "1v1", teamAName := "B", teamBName := "G",
         teamAPlayers := ["p2"], teamBPlayers := ["g2"], goalsA := 3, goalsB := 3,
         enteredBy := "x", sessionId := none }] =
      [{ id := "p1", name := "A", played := 1, wins := 0, draws := 1, losses := 0,
         goalsFor := 2, goalsAgainst := 2, points := 1, goalDiff := 0 },
       { id := "p2", name := "B", played := 1, wins := 0, draws := 1, losses := 0,
         goalsFor := 3, goalsAgainst := 3, points := 1, goalDiff := 0 }] := by
    decide
  have hcmp : standingsCmp
      { id := "p1", name := "A", played := 1, wins := 0, draws := 1, losses := 0,
        goalsFor := 2, goalsAgainst := 2, points := 1, goalDiff := 0 }
      { id := "p2", name := "B", played := 1, wins := 0, draws := 1, losses := 0,
        goalsFor := 3, goalsAgainst := 3, points := 1, goalDiff := 0 } = 1 := by
    simp [standingsCmp, orI]
  have hle : standingsLe
      { id := "p1", name := "A", played := 1, wins := 0, draws := 1, losses := 0,
        goalsFor := 2, goalsAgainst := 2, points := 1, goalDiff := 0 }
      { id := "p2", name := "B", played := 1, wins := 0, draws := 1, losses := 0,
        goalsFor := 3, goalsAgainst := 3, points := 1, goalDiff := 0 } = false := by
    rw [standingsLe, hcmp]
    rfl
  have hsort : sortedStandings
      [{ id := "p1", name := "A" }, { id := "p2", name := "B" }]
      [{ id := "m1", dateISO := "t1", mode := "1v1", teamAName := "A", teamBName := "G",
         teamAPlayers := ["p1"], teamBPlayers := ["g1"], goalsA := 2, goalsB := 2,
         enteredBy := "x", sessionId := none },
       { id := "m2", dateISO := "t2", mode := "1v1", teamAName := "B", teamBName := "G",
         teamAPlayers := ["p2"], teamBPlayers := ["g2"], goalsA := 3, goalsB := 3,
         enteredBy := "x", sessionId := none }] =
      [{ id := "p2", name := "B", played := 1, wins := 0, draws := 1, losses := 0,
         goalsFor := 3, goalsAgainst := 3, points := 1, goalDiff := 0 },
       { id := "p1", name := "A", played := 1, wins := 0, draws := 1, losses := 0,
         goalsFor := 2, goalsAgainst := 2, points := 1, goalDiff := 0 }] := by
    unfold sortedStandings
    rw [hcs, mergeSort_pair]
    simp [hle]
  rw [hsort]
  intro h
  have hrel := (List.pairwise_cons.mp h).1
    { id := "p1", name := "A", played := 1, wins := 0, draws := 1, losses := 0,
      goalsFor := 2, goalsAgainst := 2, points := 1, goalDiff := 0 }
    (by simp)
  exact absurd (hrel rfl rfl) (not_le.mpr nameA_lt_nameB)

/-- C8 (amended). In the standings display order, any two players with
equal points, equal goal difference AND equal goals-for are ordered by
ascending name (the comparator breaks point and goal-difference ties by
descending goals-for before falling back to name order). -/
theorem tiebreak_name_order (ps : List Player) (ms : List Match) :
    (sortedStandings ps ms).Pairwise
      (fun a b => a.points = b.points → a.goalDiff = b.goalDiff →
        a.goalsFor = b.goalsFor → a.name ≤ b.name) := by
  have hpw : (sortedStandings ps ms).Pairwise (fun a b => standingsLe a b = true) :=
    List.sorted_mergeSort standingsLe_trans standingsLe_total (computeStandings ps ms)
  refine hpw.imp ?_
  intro a b hle hp hd hf
  rw [standingsLe, decide_eq_true_eq, standingsCmp_le] at hle
  rcases hle with h | ⟨_, h | ⟨_, h | ⟨_, h⟩⟩⟩
  · exact absurd hp.symm (ne_of_lt h)
  · exact absurd hd.symm (ne_of_lt h)
  · exact absurd hf.symm (ne_of_lt h)
  · exact h

/-- C8 amended witness: on a concrete snapshot with two fully tied rows,
the theorem yields the ascending-name fact between them. -/
theorem tiebreak_name_order_witness : ("A" : String) ≤ "B" := by
  have hth := tiebreak_name_order
    [{ id := "p1", name := "A" }, { id := "p2", name := "B" }]
    [{ id := "m1", dateISO := "t1", mode := "1v1", teamAName := "A", teamBName := "G",
       teamAPlayers := ["p1"], teamBPlayers := ["g1"], goalsA := 2, goalsB := 2,
       enteredBy := "x", sessionId := none },
     { id := "m2", dateISO := "t2", mode := "1v1", teamAName := "B", teamBName := "G",
       teamAPlayers := ["p2"], teamBPlayers := ["g2"], goalsA := 2, goalsB := 2,
       enteredBy := "x", sessionId := none }]
  have hcs : computeStandings
      [{ id := "p1", name := "A" }, { id := "p2", name := "B" }]
      [{ id := "m1", dateISO := "t1", mode := "1v1", teamAName := "A", teamBName := "G",
         teamAPlayers := ["p1"], teamBPlayers := ["g1"], goalsA := 2, goalsB := 2,
         enteredBy := "x", sessionId := none },
       { id := "m2", dateISO := "t2", mode := "1v1", teamAName := "B", teamBName := "G",
         teamAPlayers := ["p2"], teamBPlayers := ["g2"], goalsA := 2, goalsB := 2,
         enteredBy := "x", sessionId := none }] =
      [{ id := "p1", name := "A", played := 1, wins := 0, draws := 1, losses := 0,
         goalsFor := 2, goalsAgainst := 2, points := 1, goalDiff := 0 },
       { id := "p2", name := "B", played := 1, wins := 0, draws := 1, losses := 0,
         goalsFor := 2, goalsAgainst := 2, points := 1, goalDiff := 0 }] := by
    decide
  have hcmp : standingsCmp
      { id := "p1", name := "A", played := 1, wins := 0, draws := 1, losses := 0,
        goalsFor := 2, goalsAgainst := 2, points := 1, goalDiff := 0 }
      { id := "p2", name := "B", played := 1, wins := 0, draws := 1, losses := 0,
        goalsFor := 2, goalsAgainst := 2, points := 1, goalDiff := 0 } = -1 := by
    unfold standingsCmp nameCmp
    dsimp only
    rw [if_pos nameA_lt_nameB]
    simp [orI]
  have hle : standingsLe
      { id := "p1", name := "A", played := 1, wins := 0, draws := 1, losses := 0,
        goalsFor := 2, goalsAgainst := 2, points := 1, goalDiff := 0 }
      { id := "p2", name := "B", played := 1, wins := 0, draws := 1, losses := 0,
        goalsFor := 2, goalsAgainst := 2, points := 1, goalDiff := 0 } = true := by
    rw [standingsLe, hcmp]
    rfl
  have hsort : sortedStandings
      [{ id := "p1", name := "A" }, { id := "p2", name := "B" }]
      [{ id := "m1", dateISO := "t1", mode := "1v1", teamAName := "A", teamBName := "G",
         teamAPlayers := ["p1"], teamBPlayers := ["g1"], goalsA := 2, goalsB := 2,
         enteredBy := "x", sessionId := none },
       { id := "m2", dateISO := "t2", mode := "1v1", teamAName := "B", teamBName := "G",
         teamAPlayers := ["p2"], teamBPlayers := ["g2"], goalsA := 2, goalsB := 2,
         enteredBy := "x", sessionId := none }] =
      [{ id := "p1", name := "A", played := 1, wins := 0, draws := 1, losses := 0,
         goalsFor := 2, goalsAgainst := 2, points := 1, goalDiff := 0 },
       { id := "p2", name := "B", played := 1, wins := 0, draws := 1, losses := 0,
         goalsFor := 2, goalsAgainst := 2, points := 1, goalDiff := 0 }] := by
    unfold sortedStandings
    rw [hcs, mergeSort_pair]
    simp [hle]
  rw [hsort] at hth
  exact (List.pairwise_cons.mp hth).1
    { id := "p2", name := "B", played := 1, wins := 0, draws := 1, losses := 0,
      goalsFor := 2, goalsAgainst := 2, points := 1, goalDiff := 0 }
    (by simp) rfl rfl rfl

/-- Reading back an encoded string succeeds (helper for C9). -/
theorem getStr_jstr (s : String) : getStr (Jx.jstr s) = some s := rfl

/-- Reading back an encoded non-negative integer succeeds (helper for
C9). -/
theorem getNat_natCast (n : Nat) : getNat (Jx.jnum n) = some n := by
  show (if (n : Int) < 0 then none else some (n : Int).toNat) = some n
  rw [if_neg (by omega)]
  simp

/-- Reading back an encoded string list succeeds (helper for C9). -/
theorem strList_rt (l : List String) : mapDec getStr (l.map Jx.jstr) = some l := by
  induction l with
  | nil => rfl
  | cons x xs ih => simp [mapDec, ih, getStr]

/-- Element-wise decode inverts element-wise encode (helper for C9). -/
theorem mapDec_rt {a b : Type} (enc : a → b) (dec : b → Option a)
    (h : ∀ x, dec (enc x) = some x) (l : List a) :
    mapDec dec (l.map enc) = some l := by
  induction l with
  | nil => rfl
  | cons x xs ih => simp [mapDec, ih, h]

/-- A Player survives the export-import round trip (helper for C9). -/
theorem decPlayer_enc (p : Player) : decPlayer (encPlayer p) = some p := by
  cases p
  rfl

/-- A Match survives the export-import round trip (helper for C9). -/
theorem decMatch_enc (m : Match) : decMatch (encMatch m) = some m := by
  rcases m with ⟨i, d, mo, an, bn, ap, bp, ga, gb, eb, sid⟩
  cases sid <;>
    simp [encMatch, decMatch, jfield, List.lookup, getStr, getStrList, getNat_natCast,
      strList_rt]

/-- A KingSession survives the export-import round trip (helper for
C9). -/
theorem decKingSession_enc (s : KingSession) : decKingSession (encKingSession s) = some s := by
  rcases s with ⟨i, d, ks, bo, mo, ke⟩
  cases ke <;>
    simp [encKingSession, decKingSession, jfield, List.lookup, getStr, getStrList,
      getNat_natCast, strList_rt]

/-- A Violation survives the export-import round trip (helper for C9). -/
theorem decViolation_enc (v : Violation) : decViolation (encViolation v) = some v := by
  cases v
  rfl

/-- C9. Exporting a snapshot and re-importing the exported payload with
the current theme preserved yields a snapshot whose players, matches,
kingSessions and violations lists are equal to the originals. -/
theorem export_import_roundtrip (db : DB) :
    ∃ db2 : DB, importDb (encDB db) db.theme = some db2 /\
      db2.players = db.players /\ db2.«matches» = db.«matches» /\
      db2.kingSessions = db.kingSessions /\ db2.violations = db.violations := by
  refine ⟨{ theme := themeOr db.theme db.theme, players := db.players,
            «matches» := db.«matches», kingSessions := db.kingSessions,
            violations := db.violations }, ?_, rfl, rfl, rfl, rfl⟩
  have hdec : decDB (encDB db) = some
      { theme := db.theme, players := db.players, «matches» := db.«matches»,
        kingSessions := db.kingSessions, violations := db.violations } := by
    simp [encDB, decDB, jfield, List.lookup, getStr,
      mapDec_rt encPlayer decPlayer decPlayer_enc,
      mapDec_rt encMatch decMatch decMatch_enc,
      mapDec_rt encKingSession decKingSession decKingSession_enc,
      mapDec_rt encViolation decViolation decViolation_enc]
  rw [importDb, hdec]
  rfl

end Koenig
